import Mathlib

/-!
# AgriMate — verification of the land-allocation / financial-aggregation core

Shallow embedding of the AgriMate Django application's core logic:

* `models.py`   — `FarmerProfile`, `CropCycle` (with `clean`/`save` land
  validation), `Expense`, `Yield`, and `FarmerProfile.get_free_land`.
* `core/views.py` — the operations reachable through `config/urls.py` that
  touch the ledger: `crop_add`, `expense_add`, `crop_harvest`, plus the
  credit-score computation of `generate_pdf` and the `signup` field list.
* `forms.py`    — `ExpenseForm.__init__`'s queryset filter.
* `core/market_service.py` — `get_crop_forecast`, `_get_estimated_forecast`,
  `CROP_ESTIMATES`.

Django `DecimalField` values are embedded as `Rat` (the Python code performs
only exact `Decimal` additions, subtractions, multiplications and short
divisions); database rows are lists of records keyed by `Nat` primary keys;
fallible saves return `Except`.
-/

namespace AgriMate

/-- ASCII lowercasing of one character, as Python's `str.lower()` acts on
the ASCII crop names the application stores. -/
def lowerChar (c : Char) : Char :=
  if 'A' ≤ c ∧ c ≤ 'Z' then Char.ofNat (c.toNat + 32) else c

/-- Python `str.lower()` (ASCII range). -/
def pyLower (s : String) : String := ⟨s.data.map lowerChar⟩

/-- Python `str.strip()`'s whitespace test (ASCII range). -/
def isSpaceChar (c : Char) : Bool :=
  c == ' ' || c == '\t' || c == '\n' || c == '\r'

/-- Python `str.strip()`: drop leading and trailing whitespace. -/
def pyStrip (s : String) : String :=
  ⟨((s.data.dropWhile isSpaceChar).reverse.dropWhile isSpaceChar).reverse⟩

/-- `CropCycle.STATUS_CHOICES` from `models.py`. -/
inductive Status where
  | ACTIVE
  | HARVESTED
deriving DecidableEq, Repr

/-- `status == 'ACTIVE'` as a boolean test. -/
def Status.isActive : Status → Bool
  | .ACTIVE => true
  | .HARVESTED => false

/-- `status == 'HARVESTED'` as a boolean test. -/
def Status.isHarvested : Status → Bool
  | .ACTIVE => false
  | .HARVESTED => true

/-- `FarmerProfile` (`models.py`): the fields the ledger logic reads.
(`farmer_code`, `state`, `district`, `category`, `has_kcc`, `created_at`
are carried by the row but never read by the land/score/forecast logic;
see `farmerProfileFields` below for the full column list.) -/
structure Farmer where
  id : Nat
  total_land_area : Rat
deriving DecidableEq, Repr

/-- `CropCycle` (`models.py`). `start_date`, `notes`, `created_at` are
never read by the verified logic and are omitted from the row. -/
structure CropCycle where
  id : Nat
  farmerId : Nat
  crop_name : String
  area_used : Rat
  status : Status
deriving DecidableEq, Repr

/-- `Expense` (`models.py`): `item_name`, `receipt_image`, `date` are
never read by the verified logic. -/
structure Expense where
  id : Nat
  cycleId : Nat
  cost : Rat
deriving DecidableEq, Repr

/-- `Yield` (`models.py`): one-to-one with `CropCycle`; only
`selling_price` is read by the aggregation logic. -/
structure Yield where
  cycleId : Nat
  selling_price : Rat
deriving DecidableEq, Repr

/-- The persisted state: the tables the verified operations touch. -/
structure DB where
  farmers : List Farmer
  cycles : List CropCycle
  expenses : List Expense
  yields : List Yield
deriving DecidableEq, Repr

/-- Row lookup `FarmerProfile.objects.get(pk=fid)` (first match). -/
def findFarmer (fid : Nat) (db : DB) : Option Farmer :=
  db.farmers.find? (fun f => f.id == fid)

/-- `Σ area_used` over one farmer's ACTIVE cycles:
`cropcycle_set.filter(status='ACTIVE').aggregate(Sum('area_used'))`
(`models.py` line 36). -/
def activeAreaSum (fid : Nat) (cycles : List CropCycle) : Rat :=
  ((cycles.filter (fun c => c.farmerId == fid && c.status.isActive)).map
    (fun c => c.area_used)).sum

/-- `FarmerProfile.get_free_land` (`models.py` lines 35-37):
`total_land_area - used`. -/
def get_free_land (f : Farmer) (db : DB) : Rat :=
  f.total_land_area - activeAreaSum f.id db.cycles

/-- The sum recomputed by `CropCycle.clean` (`models.py` line 59):
the farmer's ACTIVE area excluding the candidate's own primary key
(`.exclude(pk=self.pk)`). -/
def usedExcluding (fid pk : Nat) (cycles : List CropCycle) : Rat :=
  ((cycles.filter (fun c =>
      c.farmerId == fid && c.status.isActive && !(c.id == pk))).map
    (fun c => c.area_used)).sum

/-- Errors surfaced by the embedded operations. `insufficientLand`
carries the farmer's current free-land value, as the `ValidationError`
message of `models.py` line 61 does; `invalidChoice` is the `ModelForm`
rejection of a cycle outside `ExpenseForm`'s queryset; `notFound` is
`get_object_or_404`. -/
inductive SaveError where
  | insufficientLand (freeLand : Rat)
  | invalidChoice
  | notFound
deriving DecidableEq, Repr

/-- `CropCycle.clean` (`models.py` lines 53-61). Validation is skipped
when the farmer row is absent (`if not self.farmer_id: return`); when the
candidate's status is ACTIVE, the farmer's other ACTIVE area plus the
candidate's area must not exceed `total_land_area`. -/
def CropCycle.clean (c : CropCycle) (db : DB) : Option SaveError :=
  match findFarmer c.farmerId db with
  | none => none
  | some f =>
    if c.status.isActive then
      let used := usedExcluding c.farmerId c.id db.cycles
      if f.total_land_area < used + c.area_used then
        some (.insufficientLand (get_free_land f db))
      else none
    else none

/-- Writing one row: replace the row with the same primary key when it
exists (UPDATE), append otherwise (INSERT). -/
def upsertCycle (c : CropCycle) (cycles : List CropCycle) : List CropCycle :=
  if cycles.any (fun x => x.id == c.id) then
    cycles.map (fun x => if x.id == c.id then c else x)
  else cycles ++ [c]

/-- `CropCycle.save` (`models.py` lines 63-65): `full_clean()` then
`super().save()`; a `ValidationError` aborts before anything is written. -/
def saveCycle (c : CropCycle) (db : DB) : Except SaveError DB :=
  match c.clean db with
  | some e => .error e
  | none => .ok { db with cycles := upsertCycle c db.cycles }

/-- The state after attempting `CropCycle.save`: on `ValidationError`
the stored state is unchanged. -/
def execSave (c : CropCycle) (db : DB) : DB :=
  match saveCycle c db with
  | .ok db' => db'
  | .error _ => db

/-- `ExpenseForm.__init__` (`forms.py` lines 26-30): the selectable
cycle set is `CropCycle.objects.filter(farmer__user=user, status='ACTIVE')`
for the requesting farmer. -/
def expenseFormQueryset (fid : Nat) (db : DB) : List CropCycle :=
  db.cycles.filter (fun c => c.farmerId == fid && c.status.isActive)

/-- Django autoincrement primary key: strictly larger than every
existing cycle id. -/
def freshCycleId (db : DB) : Nat :=
  (db.cycles.map (fun c => c.id)).foldr max 0 + 1

/-- The data a `CropForm` submits (`forms.py` lines 4-13): `status` is not
a form field, so a created cycle gets the model default `ACTIVE`. -/
structure CropFormData where
  crop_name : String
  area_used : Rat
deriving DecidableEq, Repr

/-- The ledger-mutating operations reachable through `config/urls.py`:
`crop_add`, `expense_add`, `crop_harvest` (`core/views.py`). -/
inductive Op where
  | startCrop (fid : Nat) (d : CropFormData)
  | logExpense (fid eid cycleId : Nat) (cost : Rat)
  | harvest (fid cycleId : Nat) (price : Rat)
deriving DecidableEq, Repr

/-- One user operation against the store (`core/views.py`):
* `crop_add` (lines 95-141): build a new ACTIVE cycle for the requesting
  farmer and `save()` it (the land gate runs inside `save`);
* `expense_add` (lines 145-154): the form is only valid when the chosen
  cycle is in `ExpenseForm`'s queryset — the requester's ACTIVE cycles;
* `crop_harvest` (lines 158-175): `get_object_or_404` on the cycle for the
  requesting farmer, save the `Yield`, set status `HARVESTED`, `save()`. -/
def applyOp (op : Op) (db : DB) : Except SaveError DB :=
  match op with
  | .startCrop fid d =>
      saveCycle
        { id := freshCycleId db, farmerId := fid, crop_name := d.crop_name,
          area_used := d.area_used, status := .ACTIVE } db
  | .logExpense fid eid cid cost =>
      if (expenseFormQueryset fid db).any (fun c => c.id == cid) then
        .ok { db with expenses := db.expenses ++ [⟨eid, cid, cost⟩] }
      else .error .invalidChoice
  | .harvest fid cid price =>
      match db.cycles.find? (fun c => c.id == cid && c.farmerId == fid) with
      | none => .error .notFound
      | some c =>
          saveCycle { c with status := .HARVESTED }
            { db with yields := db.yields ++ [⟨cid, price⟩] }

/-- The state after attempting an operation: a rejected operation leaves
the stored state unchanged. -/
def execOp (op : Op) (db : DB) : DB :=
  match applyOp op db with
  | .ok db' => db'
  | .error _ => db

/-! ## Financial aggregator and forecast engine (`core/market_service.py`) -/

/-- `Expense.objects.filter(cycle=cycle).aggregate(Sum('cost'))`
(`market_service.py` lines 179-181), `or Decimal('0')`. -/
def cycleExpenseTotal (cid : Nat) (db : DB) : Rat :=
  ((db.expenses.filter (fun e => e.cycleId == cid)).map (fun e => e.cost)).sum

/-- `Yield.objects.get(cycle=cycle)` (`market_service.py` line 184):
the cycle's one-to-one yield row, if any. -/
def cycleYield (cid : Nat) (db : DB) : Option Yield :=
  db.yields.find? (fun y => y.cycleId == cid)

/-- `CropCycle.objects.filter(crop_name__iexact=crop_name.strip(),
status='HARVESTED')` (`market_service.py` lines 161-164): completed
cycles for the crop, matched case-insensitively on the exact name. -/
def matchingHarvested (crop_name : String) (db : DB) : List CropCycle :=
  db.cycles.filter (fun c =>
    pyLower c.crop_name == pyLower (pyStrip crop_name) && c.status.isHarvested)

/-- The running totals of the aggregation loop
(`market_service.py` lines 173-192). -/
structure Agg where
  total_expenses : Rat
  total_income : Rat
  total_area : Rat
  cycles_with_yield : Nat
deriving DecidableEq, Repr

/-- The `for cycle in completed_cycles` loop of `get_crop_forecast`
(`market_service.py` lines 178-192). -/
def aggregateCycles (db : DB) (cycles : List CropCycle) : Agg :=
  cycles.foldl
    (fun a c =>
      let ce := cycleExpenseTotal c.id db
      let ciw : Rat × Nat :=
        match cycleYield c.id db with
        | some y => (y.selling_price, 1)
        | none => (0, 0)
      { total_expenses := a.total_expenses + ce,
        total_income := a.total_income + ciw.1,
        total_area := a.total_area + c.area_used,
        cycles_with_yield := a.cycles_with_yield + ciw.2 })
    ⟨0, 0, 0, 0⟩

/-- The numeric forecast record returned with `found = True`
(`market_service.py` lines 211-224 and 264-277). The Python dict also
carries the echoed crop name and a 2-decimal presentation rounding of
each amount; the exact `Decimal` amounts are modelled, rounding being a
presentation-boundary concern. -/
structure Forecast where
  area : Rat
  data_source : String
  cycle_count : Nat
  avg_expense_per_acre : Rat
  avg_income_per_acre : Rat
  avg_profit_per_acre : Rat
  estimated_expense : Rat
  estimated_income : Rat
  estimated_profit : Rat
  roi_percentage : Rat
deriving DecidableEq, Repr

/-- A forecast outcome: numeric data with `found = True`, or the
`found = False` dict, which carries no numeric fields
(`market_service.py` lines 250-255). -/
inductive ForecastResult where
  | data (f : Forecast)
  | noData (crop message : String)
deriving DecidableEq, Repr

/-- `CROP_ESTIMATES` (`market_service.py` lines 228-245): curated
per-acre `(expense, income)` pairs keyed by lower-cased crop name. -/
def CROP_ESTIMATES : List (String × Rat × Rat) :=
  [("wheat", 12000, 28000), ("rice", 15000, 32000), ("paddy", 14000, 30000),
   ("maize", 10000, 22000), ("cotton", 18000, 40000),
   ("sugarcane", 25000, 55000), ("soybean", 12000, 26000),
   ("mustard", 10000, 24000), ("groundnut", 16000, 35000),
   ("onion", 20000, 45000), ("potato", 18000, 38000),
   ("tomato", 22000, 50000), ("chana", 10000, 22000), ("tur", 12000, 28000),
   ("jowar", 8000, 18000), ("bajra", 7000, 16000)]

/-- `crop_lower in CROP_ESTIMATES` / `CROP_ESTIMATES[crop_lower]`. -/
def lookupEstimate (crop_lower : String) : Option (Rat × Rat) :=
  (CROP_ESTIMATES.find? (fun p => p.1 == crop_lower)).map (fun p => p.2)

/-- `_get_estimated_forecast` (`market_service.py` lines 248-277):
curated per-acre estimates scaled by area, or the `found = False` dict
when the crop is not in the table. -/
def get_estimated_forecast (crop_lower : String) (area_acres : Rat) :
    ForecastResult :=
  match lookupEstimate crop_lower with
  | none =>
      .noData crop_lower
        "No historical or estimated data available for this crop."
  | some (expense, income) =>
      let profit := income - expense
      .data
        { area := area_acres, data_source := "estimated", cycle_count := 0,
          avg_expense_per_acre := expense, avg_income_per_acre := income,
          avg_profit_per_acre := profit,
          estimated_expense := expense * area_acres,
          estimated_income := income * area_acres,
          estimated_profit := profit * area_acres,
          roi_percentage := if 0 < expense then profit / expense * 100 else 0 }

/-- `get_crop_forecast` (`market_service.py` lines 142-224): historical
per-acre averages over matching HARVESTED cycles when any exist and
their total area is nonzero; otherwise fall through to
`_get_estimated_forecast`. -/
def get_crop_forecast (crop_name : String) (area_acres : Rat) (db : DB) :
    ForecastResult :=
  let crop_lower := pyLower (pyStrip crop_name)
  let completed := matchingHarvested crop_name db
  if completed.length = 0 then get_estimated_forecast crop_lower area_acres
  else
    let agg := aggregateCycles db completed
    if agg.total_area = 0 then get_estimated_forecast crop_lower area_acres
    else
      let avg_expense_per_acre := agg.total_expenses / agg.total_area
      let avg_income_per_acre :=
        if 0 < agg.cycles_with_yield then agg.total_income / agg.total_area
        else 0
      let avg_profit_per_acre := avg_income_per_acre - avg_expense_per_acre
      .data
        { area := area_acres, data_source := "historical",
          cycle_count := completed.length,
          avg_expense_per_acre := avg_expense_per_acre,
          avg_income_per_acre := avg_income_per_acre,
          avg_profit_per_acre := avg_profit_per_acre,
          estimated_expense := avg_expense_per_acre * area_acres,
          estimated_income := avg_income_per_acre * area_acres,
          estimated_profit := avg_profit_per_acre * area_acres,
          roi_percentage :=
            if 0 < avg_expense_per_acre then
              avg_profit_per_acre / avg_expense_per_acre * 100
            else 0 }

/-! ## Credit scorer (`core/views.py`, `generate_pdf`, lines 191-248) -/

/-- `CropCycle.objects.filter(farmer=farmer)`: all of a farmer's cycles,
any status. -/
def farmerCycles (fid : Nat) (db : DB) : List CropCycle :=
  db.cycles.filter (fun c => c.farmerId == fid)

/-- `crops.count()` where `crops = ...filter(farmer=farmer)
.order_by('-start_date')[:10]` (`views.py` line 199): the count of the
sliced queryset, `min(total, 10)`. -/
def crops_count_report (fid : Nat) (db : DB) : Nat :=
  min (farmerCycles fid db).length 10

/-- `Yield.objects.filter(cycle__farmer=farmer).aggregate(Sum(
'selling_price'))` (`views.py` lines 203-205), `or 0`. -/
def total_income (fid : Nat) (db : DB) : Rat :=
  ((db.yields.filter (fun y =>
      db.cycles.any (fun c => c.id == y.cycleId && c.farmerId == fid))).map
    (fun y => y.selling_price)).sum

/-- `Expense.objects.filter(cycle__farmer=farmer).aggregate(Sum('cost'))`
(`views.py` lines 207-209), `or 0`. -/
def total_expenses (fid : Nat) (db : DB) : Rat :=
  ((db.expenses.filter (fun e =>
      db.cycles.any (fun c => c.id == e.cycleId && c.farmerId == fid))).map
    (fun e => e.cost)).sum

/-- `net_profit = total_income - total_expenses` (`views.py` line 211). -/
def net_profit (fid : Nat) (db : DB) : Rat :=
  total_income fid db - total_expenses fid db

/-- `CropCycle.objects.filter(farmer=farmer, status='ACTIVE').count()`
(`views.py` line 212). -/
def active_crop_count (fid : Nat) (db : DB) : Nat :=
  (db.cycles.filter (fun c => c.farmerId == fid && c.status.isActive)).length

/-- `credit_score` (`views.py` lines 216-220):
`min(100, crops.count()*10 + (20 if net_profit > 0 else 0)
+ active_crop_count*5)`. -/
def credit_score (fid : Nat) (db : DB) : Nat :=
  min 100
    (crops_count_report fid db * 10 +
      (if 0 < net_profit fid db then 20 else 0) +
      active_crop_count fid db * 5)

/-! ## Registration (`core/views.py`, `signup`, lines 17-64) -/

/-- The columns of the `FarmerProfile` table as `models.py` lines 7-25
declare them (plus the implicit `id` primary key). -/
def farmerProfileFields : List String :=
  ["id", "user", "farmer_code", "total_land_area", "state", "district",
   "category", "has_kcc", "created_at"]

/-- The keyword arguments `signup` passes to
`FarmerProfile.objects.create` (`views.py` lines 41-49). -/
def signupProfileKwargs : List String :=
  ["user", "total_land_area", "state", "district", "category", "has_kcc",
   "language"]

/-- `signup`'s language normalization (`views.py` lines 27-30): only
`en`, `hi`, `pa` are kept; anything else falls back to `en`. -/
def normalizeLanguage (l : String) : String :=
  if l == "en" || l == "hi" || l == "pa" then l else "en"

/-! ## Well-formedness of the stored state

The state space the Django data model describes: primary keys identify
rows uniquely, and (per the spec's data model) every cycle's
`area_used` is positive.  The free-land invariant is part of it. -/

/-- Well-formed stored state. -/
structure WF (db : DB) : Prop where
  farmersConsistent : ∀ f ∈ db.farmers, findFarmer f.id db = some f
  cycleIdsNodup : (db.cycles.map (fun c => c.id)).Nodup
  areasPos : ∀ c ∈ db.cycles, 0 < c.area_used
  freeNonneg : ∀ f ∈ db.farmers, 0 ≤ get_free_land f db

/-- The data-model constraint an operation's input carries: a created
cycle's `area_used` is positive (spec data model: area > 0). -/
def Op.inputOK : Op → Prop
  | .startCrop _ d => 0 < d.area_used
  | .logExpense _ _ _ _ => True
  | .harvest _ _ _ => True

/-- One cycle's contribution to a farmer's ACTIVE area sum. -/
def cycleContrib (fid : Nat) (c : CropCycle) : Rat :=
  if c.farmerId == fid && c.status.isActive then c.area_used else 0

/-- A concrete store: one farmer with 10 acres, one 6-acre ACTIVE
wheat cycle. -/
def dbW0 : DB :=
  { farmers := [⟨1, 10⟩],
    cycles := [⟨1, 1, "Wheat", 6, .ACTIVE⟩],
    expenses := [],
    yields := [] }

/-- A concrete store realizing the spec's Scenario C: one HARVESTED
2-acre Wheat cycle with expenses 2500 + 1500 and a yield sold for
10000. -/
def wheatDB : DB :=
  { farmers := [⟨1, 10⟩],
    cycles := [⟨1, 1, "Wheat", 2, .HARVESTED⟩],
    expenses := [⟨1, 1, 2500⟩, ⟨2, 1, 1500⟩],
    yields := [⟨1, 10000⟩] }

/-- The store `dbW0` after a successful 4-acre Rice `crop_add`. -/
def dbW1 : DB :=
  { farmers := [⟨1, 10⟩],
    cycles := [⟨1, 1, "Wheat", 6, .ACTIVE⟩, ⟨2, 1, "Rice", 4, .ACTIVE⟩],
    expenses := [],
    yields := [] }

/-- The forecast record Scenario C produces for Wheat over 3 acres. -/
def fW : Forecast :=
  { area := 3, data_source := "historical", cycle_count := 1,
    avg_expense_per_acre := 2000, avg_income_per_acre := 5000,
    avg_profit_per_acre := 3000, estimated_expense := 6000,
    estimated_income := 15000, estimated_profit := 9000,
    roi_percentage := 150 }

/-! ## Basic lemmas about the area sums -/

theorem cycleContrib_nonneg (fid : Nat) (c : CropCycle)
    (h : 0 ≤ c.area_used) : 0 ≤ cycleContrib fid c := by
  unfold cycleContrib
  split
  · exact h
  · exact le_refl 0

theorem activeAreaSum_eq (fid : Nat) (cycles : List CropCycle) :
    activeAreaSum fid cycles = (cycles.map (cycleContrib fid)).sum := by
  induction cycles with
  | nil => rfl
  | cons c t ih =>
    unfold activeAreaSum at ih ⊢
    rw [List.filter_cons]
    by_cases hf : c.farmerId = fid <;> by_cases ha : c.status.isActive = true <;>
      simp [hf, ha, cycleContrib, ih]

theorem usedExcluding_eq (fid pk : Nat) (cycles : List CropCycle) :
    usedExcluding fid pk cycles =
      (cycles.map (fun x =>
        if x.id == pk then (0 : Rat) else cycleContrib fid x)).sum := by
  induction cycles with
  | nil => rfl
  | cons c t ih =>
    unfold usedExcluding at ih ⊢
    rw [List.filter_cons]
    by_cases hpk : c.id = pk <;> by_cases hf : c.farmerId = fid <;>
      by_cases ha : c.status.isActive = true <;>
        simp [hpk, hf, ha, cycleContrib, ih]

theorem activeAreaSum_append (fid : Nat) (cycles : List CropCycle)
    (c : CropCycle) :
    activeAreaSum fid (cycles ++ [c]) =
      activeAreaSum fid cycles + cycleContrib fid c := by
  simp [activeAreaSum_eq]

theorem usedExcluding_of_not_mem (fid pk : Nat) (cycles : List CropCycle)
    (h : ∀ x ∈ cycles, x.id ≠ pk) :
    usedExcluding fid pk cycles = activeAreaSum fid cycles := by
  rw [usedExcluding_eq, activeAreaSum_eq]
  congr 1
  apply List.map_congr_left
  intro x hx
  simp [h x hx]

theorem sum_map_update (g : CropCycle → Rat) (c : CropCycle)
    (cycles : List CropCycle)
    (hnd : (cycles.map (fun x => x.id)).Nodup)
    (hmem : ∃ x ∈ cycles, x.id = c.id) :
    ((cycles.map (fun x => if x.id == c.id then c else x)).map g).sum =
      (cycles.map (fun x =>
        if x.id == c.id then (0 : Rat) else g x)).sum + g c := by
  induction cycles with
  | nil => simp at hmem
  | cons x t ih =>
    simp only [List.map_cons, List.nodup_cons] at hnd
    by_cases hx : x.id = c.id
    · have htail : ∀ y ∈ t, y.id ≠ c.id := by
        intro y hy hyc
        exact hnd.1 (by rw [hx, ← hyc]; exact List.mem_map_of_mem _ hy)
      have h1 : t.map (fun y => if y.id == c.id then c else y) = t := by
        conv_rhs => rw [← List.map_id t]
        apply List.map_congr_left
        intro y hy
        simp [htail y hy]
      have h2 : t.map (fun y => if y.id == c.id then (0 : Rat) else g y) =
          t.map g := by
        apply List.map_congr_left
        intro y hy
        simp [htail y hy]
      simp only [List.map_cons, List.sum_cons, h1, h2, hx, beq_self_eq_true,
        if_true]
      ring
    · rcases hmem with ⟨y, hy, hyc⟩
      rcases List.mem_cons.mp hy with rfl | hyt
      · exact absurd hyc hx
      · have := ih hnd.2 ⟨y, hyt, hyc⟩
        simp only [List.map_cons, List.sum_cons]
        rw [if_neg (by simpa using hx), if_neg (by simpa using hx), this]
        ring

theorem sum_map_zero_at (g : CropCycle → Rat) (c : CropCycle)
    (cycles : List CropCycle)
    (hnd : (cycles.map (fun x => x.id)).Nodup) (hmem : c ∈ cycles) :
    (cycles.map (fun x =>
      if x.id == c.id then (0 : Rat) else g x)).sum =
      (cycles.map g).sum - g c := by
  induction cycles with
  | nil => simp at hmem
  | cons x t ih =>
    simp only [List.map_cons, List.nodup_cons] at hnd
    rcases List.mem_cons.mp hmem with rfl | hmt
    · have htail : ∀ y ∈ t, y.id ≠ c.id := by
        intro y hy hyc
        exact hnd.1 (by rw [← hyc]; exact List.mem_map_of_mem _ hy)
      have h2 : t.map (fun y => if y.id == c.id then (0 : Rat) else g y) =
          t.map g := by
        apply List.map_congr_left
        intro y hy
        simp [htail y hy]
      simp only [List.map_cons, List.sum_cons, h2, beq_self_eq_true, if_true]
      ring
    · have hx : x.id ≠ c.id := by
        intro hxc
        exact hnd.1 (by rw [hxc]; exact List.mem_map_of_mem _ hmt)
      have := ih hnd.2 hmt
      simp only [List.map_cons, List.sum_cons]
      rw [if_neg (by simpa using hx), this]
      ring

theorem sum_map_zero_at_le (g : CropCycle → Rat) (pk : Nat)
    (cycles : List CropCycle) (h : ∀ x ∈ cycles, 0 ≤ g x) :
    (cycles.map (fun x =>
      if x.id == pk then (0 : Rat) else g x)).sum ≤ (cycles.map g).sum := by
  apply List.sum_le_sum
  intro x hx
  split
  · exact h x hx
  · exact le_refl _

theorem usedExcluding_le (fid pk : Nat) (cycles : List CropCycle)
    (h : ∀ x ∈ cycles, 0 ≤ x.area_used) :
    usedExcluding fid pk cycles ≤ activeAreaSum fid cycles := by
  rw [usedExcluding_eq, activeAreaSum_eq]
  exact sum_map_zero_at_le _ _ _
    (fun x hx => cycleContrib_nonneg fid x (h x hx))

theorem le_foldr_max (l : List Nat) : ∀ n ∈ l, n ≤ l.foldr max 0 := by
  induction l with
  | nil => simp
  | cons a t ih =>
    intro n hn
    rcases List.mem_cons.mp hn with rfl | hnt
    · exact le_max_left _ _
    · exact (ih n hnt).trans (le_max_right _ _)

theorem freshCycleId_not_mem (db : DB) :
    ∀ c ∈ db.cycles, c.id ≠ freshCycleId db := by
  intro c hc heq
  have h1 : c.id ≤ (db.cycles.map (fun c => c.id)).foldr max 0 :=
    le_foldr_max _ _ (List.mem_map_of_mem _ hc)
  rw [heq] at h1
  unfold freshCycleId at h1
  omega

theorem eq_of_mem_of_id_eq {cycles : List CropCycle}
    (hnd : (cycles.map (fun c => c.id)).Nodup)
    {c c' : CropCycle} (hc : c ∈ cycles) (hc' : c' ∈ cycles)
    (h : c'.id = c.id) : c' = c :=
  List.inj_on_of_nodup_map hnd hc' hc h

/-- The master sum lemma: after `upsertCycle`, one farmer's ACTIVE area
is the `clean`-style sum (excluding the candidate's key) plus the
candidate's own contribution. -/
theorem activeAreaSum_upsert (fid : Nat) (c : CropCycle)
    (cycles : List CropCycle)
    (hnd : (cycles.map (fun x => x.id)).Nodup) :
    activeAreaSum fid (upsertCycle c cycles) =
      usedExcluding fid c.id cycles + cycleContrib fid c := by
  unfold upsertCycle
  by_cases hany : cycles.any (fun x => x.id == c.id) = true
  · rcases List.any_eq_true.mp hany with ⟨x, hx, hxc⟩
    rw [if_pos hany, activeAreaSum_eq, usedExcluding_eq]
    exact sum_map_update (cycleContrib fid) c cycles hnd
      ⟨x, hx, by simpa using hxc⟩
  · rw [if_neg hany, activeAreaSum_append,
      usedExcluding_of_not_mem fid c.id cycles]
    intro x hx hxc
    exact hany (List.any_eq_true.mpr ⟨x, hx, by simpa using hxc⟩)

/-! ## Characterizing `clean`, `save` and the operations -/

theorem saveCycle_ok_iff (c : CropCycle) (db db' : DB) :
    saveCycle c db = .ok db' ↔
      c.clean db = none ∧
        db' = { db with cycles := upsertCycle c db.cycles } := by
  unfold saveCycle
  cases h : c.clean db <;> simp [h, eq_comm]

theorem clean_none_elim {c : CropCycle} {db : DB} (h : c.clean db = none)
    {f : Farmer} (hf : findFarmer c.farmerId db = some f)
    (hact : c.status.isActive = true) :
    usedExcluding c.farmerId c.id db.cycles + c.area_used ≤
      f.total_land_area := by
  unfold CropCycle.clean at h
  rw [hf] at h
  simp only [hact, if_true] at h
  by_cases hcmp : f.total_land_area <
      usedExcluding c.farmerId c.id db.cycles + c.area_used
  · rw [if_pos hcmp] at h
    cases h
  · exact not_lt.mp hcmp

theorem upsert_ids_nodup (c : CropCycle) (cycles : List CropCycle)
    (hnd : (cycles.map (fun x => x.id)).Nodup) :
    ((upsertCycle c cycles).map (fun x => x.id)).Nodup := by
  unfold upsertCycle
  by_cases hany : cycles.any (fun x => x.id == c.id) = true
  · rw [if_pos hany]
    have hids : (cycles.map (fun x => if x.id == c.id then c else x)).map
        (fun x => x.id) = cycles.map (fun x => x.id) := by
      rw [List.map_map]
      apply List.map_congr_left
      intro x hx
      by_cases h : x.id = c.id <;> simp [h]
    rw [hids]
    exact hnd
  · rw [if_neg hany, List.map_append]
    have hnot : c.id ∉ cycles.map (fun x => x.id) := by
      intro hmem
      rcases List.mem_map.mp hmem with ⟨x, hx, hxid⟩
      exact hany (List.any_eq_true.mpr ⟨x, hx, by simp [hxid]⟩)
    simp [List.nodup_append, hnd, hnot]

theorem upsert_areas_pos (c : CropCycle) (cycles : List CropCycle)
    (hpos : ∀ x ∈ cycles, 0 < x.area_used) (hc : 0 < c.area_used) :
    ∀ x ∈ upsertCycle c cycles, 0 < x.area_used := by
  unfold upsertCycle
  intro x hx
  by_cases hany : cycles.any (fun y => y.id == c.id) = true
  · rw [if_pos hany] at hx
    rcases List.mem_map.mp hx with ⟨y, hy, hyx⟩
    by_cases h : y.id = c.id
    · rw [if_pos (by simpa using h)] at hyx
      rw [← hyx]
      exact hc
    · rw [if_neg (by simpa using h)] at hyx
      rw [← hyx]
      exact hpos y hy
  · rw [if_neg hany] at hx
    rcases List.mem_append.mp hx with hxl | hxc
    · exact hpos x hxl
    · rw [List.mem_singleton.mp hxc]
      exact hc

/-- `WF` does not depend on the yields table. -/
theorem WF_set_yields {db : DB} (hwf : WF db) (ys : List Yield) :
    WF { db with yields := ys } :=
  ⟨hwf.farmersConsistent, hwf.cycleIdsNodup, hwf.areasPos, hwf.freeNonneg⟩

/-- `WF` does not depend on the expenses table. -/
theorem WF_set_expenses {db : DB} (hwf : WF db) (es : List Expense) :
    WF { db with expenses := es } :=
  ⟨hwf.farmersConsistent, hwf.cycleIdsNodup, hwf.areasPos, hwf.freeNonneg⟩

/-- A successful `CropCycle.save` of a positive-area candidate preserves
well-formedness — in particular every farmer's free land stays ≥ 0. -/
theorem WF_saveCycle {c : CropCycle} {db db' : DB} (hwf : WF db)
    (harea : 0 < c.area_used) (h : saveCycle c db = .ok db') : WF db' := by
  obtain ⟨hclean, rfl⟩ := (saveCycle_ok_iff c db db').mp h
  refine ⟨hwf.farmersConsistent, ?_, ?_, ?_⟩
  · exact upsert_ids_nodup c db.cycles hwf.cycleIdsNodup
  · exact upsert_areas_pos c db.cycles hwf.areasPos harea
  · intro f hf
    have hfree := hwf.freeNonneg f hf
    unfold get_free_land at hfree ⊢
    rw [show ({ db with cycles := upsertCycle c db.cycles } : DB).cycles =
        upsertCycle c db.cycles from rfl,
      activeAreaSum_upsert f.id c db.cycles hwf.cycleIdsNodup]
    by_cases hown : c.farmerId = f.id ∧ c.status.isActive = true
    · have hf' : findFarmer c.farmerId db = some f := by
        rw [hown.1]
        exact hwf.farmersConsistent f hf
      have hle := clean_none_elim hclean hf' hown.2
      rw [hown.1] at hle
      have hcontrib : cycleContrib f.id c = c.area_used := by
        simp [cycleContrib, hown.1, hown.2]
      rw [hcontrib]
      linarith
    · have hcontrib : cycleContrib f.id c = 0 := by
        unfold cycleContrib
        rw [if_neg]
        intro hcond
        rw [Bool.and_eq_true, beq_iff_eq] at hcond
        exact hown ⟨hcond.1, hcond.2⟩
      rw [hcontrib, add_zero]
      have hle := usedExcluding_le f.id c.id db.cycles
        (fun x hx => le_of_lt (hwf.areasPos x hx))
      linarith

/-- Every successful operation preserves well-formedness. -/
theorem WF_applyOp {op : Op} {db db' : DB} (hwf : WF db)
    (hin : op.inputOK) (h : applyOp op db = .ok db') : WF db' := by
  cases op with
  | startCrop fid d =>
      exact WF_saveCycle hwf (show 0 < d.area_used from hin) h
  | logExpense fid eid cid cost =>
      simp only [applyOp] at h
      by_cases hq : (expenseFormQueryset fid db).any (fun c => c.id == cid) = true
      · rw [if_pos hq] at h
        cases h
        exact WF_set_expenses hwf _
      · rw [if_neg hq] at h
        cases h
  | harvest fid cid price =>
      simp only [applyOp] at h
      cases hfind : db.cycles.find? (fun c => c.id == cid && c.farmerId == fid) with
      | none =>
          rw [hfind] at h
          cases h
      | some c =>
          rw [hfind] at h
          have hc : c ∈ db.cycles := List.mem_of_find?_eq_some hfind
          refine WF_saveCycle (WF_set_yields hwf _) ?_ h
          exact hwf.areasPos c hc

theorem find?_cycle_eq (cycles : List CropCycle)
    (hnd : (cycles.map (fun x => x.id)).Nodup)
    {c : CropCycle} (hc : c ∈ cycles) :
    cycles.find? (fun x => x.id == c.id && x.farmerId == c.farmerId) =
      some c := by
  induction cycles with
  | nil => cases hc
  | cons x t ih =>
    simp only [List.map_cons, List.nodup_cons] at hnd
    by_cases hx : x.id = c.id
    · have hxc : x = c := by
        rcases List.mem_cons.mp hc with rfl | hct
        · rfl
        · exact absurd (by rw [hx]; exact List.mem_map_of_mem _ hct) hnd.1
      subst hxc
      exact List.find?_cons_of_pos _ (by simp)
    · have hct : c ∈ t := by
        rcases List.mem_cons.mp hc with rfl | hct
        · exact absurd rfl hx
        · exact hct
      rw [List.find?_cons_of_neg _ (by simp [hx])]
      exact ih hnd.2 hct

theorem mem_upsert {x c : CropCycle} {cycles : List CropCycle}
    (hx : x ∈ upsertCycle c cycles) : x = c ∨ x ∈ cycles := by
  unfold upsertCycle at hx
  by_cases hany : cycles.any (fun y => y.id == c.id) = true
  · rw [if_pos hany] at hx
    rcases List.mem_map.mp hx with ⟨y, hy, hyx⟩
    by_cases h : y.id = c.id
    · rw [if_pos (by simpa using h)] at hyx
      exact Or.inl hyx.symm
    · rw [if_neg (by simpa using h)] at hyx
      exact Or.inr (hyx ▸ hy)
  · rw [if_neg hany] at hx
    rcases List.mem_append.mp hx with h | h
    · exact Or.inr h
    · exact Or.inl (List.mem_singleton.mp h)

/-- `crop_harvest` always succeeds on a cycle of the requesting farmer:
the land gate of `clean` never fires for a HARVESTED candidate. -/
theorem applyOp_harvest_eq (db : DB) (c : CropCycle) (price : Rat)
    (hnd : (db.cycles.map (fun x => x.id)).Nodup) (hc : c ∈ db.cycles) :
    applyOp (.harvest c.farmerId c.id price) db =
      .ok { db with
        cycles := upsertCycle { c with status := .HARVESTED } db.cycles,
        yields := db.yields ++ [⟨c.id, price⟩] } := by
  simp only [applyOp]
  rw [find?_cycle_eq db.cycles hnd hc]
  unfold saveCycle CropCycle.clean
  cases hf : findFarmer c.farmerId
      { db with yields := db.yields ++ [⟨c.id, price⟩] } <;>
    simp [hf, Status.isActive]

/-- Harvesting an ACTIVE cycle raises the owner's free land by exactly
that cycle's area. -/
theorem free_land_after_harvest (db : DB) (f : Farmer) (c : CropCycle)
    (ys : List Yield)
    (hnd : (db.cycles.map (fun x => x.id)).Nodup)
    (hc : c ∈ db.cycles) (hact : c.status = .ACTIVE)
    (hown : c.farmerId = f.id) :
    get_free_land f
      { db with
        cycles := upsertCycle { c with status := .HARVESTED } db.cycles,
        yields := ys } =
      get_free_land f db + c.area_used := by
  unfold get_free_land
  rw [show ({ db with
      cycles := upsertCycle { c with status := .HARVESTED } db.cycles,
      yields := ys } : DB).cycles =
      upsertCycle { c with status := .HARVESTED } db.cycles from rfl,
    activeAreaSum_upsert f.id _ db.cycles hnd]
  rw [usedExcluding_eq]
  rw [show ({ c with status := Status.HARVESTED } : CropCycle).id = c.id
    from rfl]
  rw [sum_map_zero_at (cycleContrib f.id) c db.cycles hnd hc]
  have h1 : cycleContrib f.id { c with status := .HARVESTED } = 0 := by
    simp [cycleContrib, Status.isActive]
  have h2 : cycleContrib f.id c = c.area_used := by
    simp [cycleContrib, hown, hact, Status.isActive]
  rw [h1, h2, activeAreaSum_eq]
  ring

/-- No reachable operation moves a HARVESTED cycle back to ACTIVE. -/
theorem harvested_stays (op : Op) (db : DB) (hwf : WF db)
    {c : CropCycle} (hc : c ∈ db.cycles) (hharv : c.status = .HARVESTED) :
    ∀ c' ∈ (execOp op db).cycles, c'.id = c.id →
      c'.status = .HARVESTED := by
  intro c' hc' hid
  unfold execOp at hc'
  cases hres : applyOp op db with
  | error e =>
      rw [hres] at hc'
      rw [eq_of_mem_of_id_eq hwf.cycleIdsNodup hc hc' hid]
      exact hharv
  | ok db' =>
      rw [hres] at hc'
      cases op with
      | startCrop fid d =>
          obtain ⟨_, rfl⟩ := (saveCycle_ok_iff _ db db').mp hres
          rcases mem_upsert hc' with rfl | hmem
          · exact absurd hid.symm (freshCycleId_not_mem db c hc)
          · rw [eq_of_mem_of_id_eq hwf.cycleIdsNodup hc hmem hid]
            exact hharv
      | logExpense fid eid cid cost =>
          simp only [applyOp] at hres
          by_cases hq : (expenseFormQueryset fid db).any
              (fun x => x.id == cid) = true
          · rw [if_pos hq] at hres
            cases hres
            rw [eq_of_mem_of_id_eq hwf.cycleIdsNodup hc hc' hid]
            exact hharv
          · rw [if_neg hq] at hres
            cases hres
      | harvest fid cid price =>
          simp only [applyOp] at hres
          cases hfind : db.cycles.find?
              (fun x => x.id == cid && x.farmerId == fid) with
          | none =>
              rw [hfind] at hres
              cases hres
          | some c0 =>
              rw [hfind] at hres
              obtain ⟨_, rfl⟩ := (saveCycle_ok_iff _ _ db').mp hres
              rcases mem_upsert hc' with rfl | hmem
              · rfl
              · rw [eq_of_mem_of_id_eq hwf.cycleIdsNodup hc hmem hid]
                exact hharv

theorem Status.isActive_iff {s : Status} : s.isActive = true ↔ s = .ACTIVE := by
  cases s <;> simp [Status.isActive]

theorem dbW0_wf : WF dbW0 := by
  refine ⟨by decide, by decide, ?_, ?_⟩
  · intro c hc
    have : c = ⟨1, 1, "Wheat", 6, .ACTIVE⟩ := by simpa [dbW0] using hc
    subst this
    norm_num
  · intro f hf
    have : f = ⟨1, 10⟩ := by simpa [dbW0] using hf
    subst this
    norm_num [get_free_land, activeAreaSum, dbW0, Status.isActive]

/-! ## The claims -/

/-- C1: for every farmer, the free-land query returns exactly
`total_land_area` minus the sum of `area_used` over that farmer's ACTIVE
crop cycles, and this value is non-negative after any successful
operation (create cycle, log expense, harvest). -/
theorem C1_free_land_invariant (db db' : DB) (op : Op)
    (hwf : WF db) (hin : op.inputOK) (h : applyOp op db = .ok db') :
    (∀ f : Farmer, get_free_land f db' =
      f.total_land_area -
        ((db'.cycles.filter (fun c =>
          c.farmerId == f.id && c.status.isActive)).map
            (fun c => c.area_used)).sum) ∧
    ∀ f ∈ db'.farmers, 0 ≤ get_free_land f db' :=
  ⟨fun _ => rfl, (WF_applyOp hwf hin h).freeNonneg⟩

/-- C2: saving a cycle whose resulting status is ACTIVE recomputes the
farmer's other ACTIVE area (excluding the candidate's own key) plus the
candidate's area; when that exceeds `total_land_area` the save fails with
`InsufficientLand` carrying the current free-land value, and the stored
state is unchanged. -/
theorem C2_insufficient_land_rejected (c : CropCycle) (db : DB)
    (f : Farmer) (hact : c.status = .ACTIVE)
    (hf : findFarmer c.farmerId db = some f)
    (hover : f.total_land_area <
      usedExcluding c.farmerId c.id db.cycles + c.area_used) :
    saveCycle c db = .error (.insufficientLand (get_free_land f db)) ∧
    execSave c db = db := by
  have hclean : c.clean db =
      some (.insufficientLand (get_free_land f db)) := by
    unfold CropCycle.clean
    rw [hf]
    dsimp only
    rw [if_pos (Status.isActive_iff.mpr hact), if_pos hover]
  refine ⟨?_, ?_⟩
  · unfold saveCycle
    rw [hclean]
  · unfold execSave saveCycle
    rw [hclean]

/-- C4: the credit score equals
`min(100, crop_count*10 + (20 if net_profit > 0 else 0)
+ active_crop_count*5)` where `crop_count` counts ALL of the farmer's
cycles regardless of status (the report's `[:10]` slice never changes the
score, because ten crops already reach the 100 cap) and exactly zero
profit earns no bonus. -/
theorem C4_credit_score_formula (fid : Nat) (db : DB) :
    credit_score fid db = min 100
      ((farmerCycles fid db).length * 10 +
        (if 0 < net_profit fid db then 20 else 0) +
        active_crop_count fid db * 5) := by
  unfold credit_score crops_count_report
  by_cases h : 0 < net_profit fid db <;> simp only [h, if_true, if_false] <;>
    omega

/-- C3: harvesting is the only status transition, it is one-way and
unconditional: `crop_harvest` on a cycle of the requesting farmer always
succeeds (never blocked by the land check), harvesting an ACTIVE cycle
increases the owner's free land by exactly its `area_used`, and once a
cycle is HARVESTED no reachable operation returns it to ACTIVE. -/
theorem C3_harvest_one_way_unconditional (db : DB) (hwf : WF db)
    (c : CropCycle) (hc : c ∈ db.cycles) :
    (∀ price : Rat, applyOp (.harvest c.farmerId c.id price) db =
      .ok { db with
        cycles := upsertCycle { c with status := .HARVESTED } db.cycles,
        yields := db.yields ++ [⟨c.id, price⟩] }) ∧
    (∀ price : Rat, ∀ f : Farmer, c.status = .ACTIVE → c.farmerId = f.id →
      get_free_land f (execOp (.harvest c.farmerId c.id price) db) =
        get_free_land f db + c.area_used) ∧
    (c.status = .HARVESTED → ∀ op : Op, ∀ c' ∈ (execOp op db).cycles,
      c'.id = c.id → c'.status = .HARVESTED) := by
  refine ⟨?_, ?_, ?_⟩
  · intro price
    exact applyOp_harvest_eq db c price hwf.cycleIdsNodup hc
  · intro price f hact hown
    unfold execOp
    rw [applyOp_harvest_eq db c price hwf.cycleIdsNodup hc]
    exact free_land_after_harvest db f c _ hwf.cycleIdsNodup hc hact hown
  · intro hharv op
    exact harvested_stays op db hwf hc hharv

/-- C10: a successful `expense_add` can only attach the expense to a
cycle of the requesting farmer with status ACTIVE — the form's
selectable set is the farmer's ACTIVE cycles, so no expense is ever
created on a HARVESTED cycle or another farmer's cycle. -/
theorem C10_expense_only_own_active (fid eid cid : Nat) (cost : Rat)
    (db db' : DB)
    (h : applyOp (.logExpense fid eid cid cost) db = .ok db') :
    (∃ c ∈ db.cycles, c.id = cid ∧ c.farmerId = fid ∧
      c.status = .ACTIVE) ∧
    db' = { db with expenses := db.expenses ++ [⟨eid, cid, cost⟩] } := by
  simp only [applyOp] at h
  by_cases hq : (expenseFormQueryset fid db).any (fun c => c.id == cid) = true
  · rcases List.any_eq_true.mp hq with ⟨c, hcq, hcid⟩
    have hmem := List.mem_filter.mp hcq
    have hcond := hmem.2
    rw [Bool.and_eq_true, beq_iff_eq] at hcond
    refine ⟨⟨c, hmem.1, by simpa using hcid, hcond.1,
      Status.isActive_iff.mp hcond.2⟩, ?_⟩
    rw [if_pos hq] at h
    cases h
    rfl
  · rw [if_neg hq] at h
    cases h

theorem get_estimated_forecast_linear {cl : String} {area : Rat}
    {f : Forecast} (h : get_estimated_forecast cl area = .data f) :
    f.area = area ∧
    f.estimated_expense = f.avg_expense_per_acre * area ∧
    f.estimated_income = f.avg_income_per_acre * area ∧
    f.estimated_profit = f.avg_profit_per_acre * area := by
  unfold get_estimated_forecast at h
  cases hlk : lookupEstimate cl with
  | none =>
      rw [hlk] at h
      cases h
  | some p =>
      rw [hlk] at h
      obtain ⟨e, i⟩ := p
      injection h with h'
      subst h'
      exact ⟨rfl, rfl, rfl, rfl⟩

theorem get_estimated_forecast_source {cl : String} {area : Rat}
    {f : Forecast} (h : get_estimated_forecast cl area = .data f) :
    f.data_source = "estimated" := by
  unfold get_estimated_forecast at h
  cases hlk : lookupEstimate cl with
  | none =>
      rw [hlk] at h
      cases h
  | some p =>
      rw [hlk] at h
      obtain ⟨e, i⟩ := p
      injection h with h'
      subst h'
      rfl

/-- C5: the forecast never divides by zero: with no matching HARVESTED
cycle, or a zero total matched area, it falls through to the estimate
path instead of computing per-acre rates, and the ROI quotient is only
formed when `avg_expense_per_acre` is positive (it is 0 otherwise). -/
theorem C5_no_zero_division (crop : String) (area : Rat) (db : DB) :
    ((matchingHarvested crop db = [] ∨
        (aggregateCycles db (matchingHarvested crop db)).total_area = 0) →
      get_crop_forecast crop area db =
        get_estimated_forecast (pyLower (pyStrip crop)) area) ∧
    (∀ f : Forecast, get_crop_forecast crop area db = .data f →
      f.data_source = "historical" → f.avg_expense_per_acre ≤ 0 →
      f.roi_percentage = 0) := by
  constructor
  · intro h
    simp only [get_crop_forecast]
    by_cases h1 : (matchingHarvested crop db).length = 0
    · rw [if_pos h1]
    · rw [if_neg h1]
      rcases h with h | h
      · exact absurd (by rw [h]; rfl) h1
      · rw [if_pos h]
  · intro f h hsrc hexp
    simp only [get_crop_forecast] at h
    by_cases h1 : (matchingHarvested crop db).length = 0
    · rw [if_pos h1] at h
      rw [get_estimated_forecast_source h] at hsrc
      exact absurd hsrc (by decide)
    · rw [if_neg h1] at h
      by_cases h2 : (aggregateCycles db (matchingHarvested crop db)).total_area = 0
      · rw [if_pos h2] at h
        rw [get_estimated_forecast_source h] at hsrc
        exact absurd hsrc (by decide)
      · rw [if_neg h2] at h
        injection h with h'
        subst h'
        exact if_neg (not_lt.mpr hexp)

/-- C6: forecast outputs scale linearly in the planned area on both the
historical and the curated-estimate path:
`estimated_expense = avg_expense_per_acre * area`, and likewise for
income and profit. -/
theorem C6_linear_in_area (crop : String) (area : Rat) (db : DB)
    (hpos : 0 < area) (f : Forecast)
    (h : get_crop_forecast crop area db = .data f) :
    f.area = area ∧
    f.estimated_expense = f.avg_expense_per_acre * area ∧
    f.estimated_income = f.avg_income_per_acre * area ∧
    f.estimated_profit = f.avg_profit_per_acre * area := by
  simp only [get_crop_forecast] at h
  by_cases h1 : (matchingHarvested crop db).length = 0
  · rw [if_pos h1] at h
    exact get_estimated_forecast_linear h
  · rw [if_neg h1] at h
    by_cases h2 : (aggregateCycles db (matchingHarvested crop db)).total_area = 0
    · rw [if_pos h2] at h
      exact get_estimated_forecast_linear h
    · rw [if_neg h2] at h
      injection h with h'
      subst h'
      exact ⟨rfl, rfl, rfl, rfl⟩

/-- C7: the spec's Scenario C. One HARVESTED "Wheat" cycle of area 2
with expenses 2500 + 1500 = 4000 and a yield sold for 10000 aggregates
to (4000, 10000, 2, with yield), and the forecast for a planned area of
3 acres gives per-acre averages 2000 / 5000 / 3000, ROI 150 % and an
estimated profit of 9000. -/
theorem C7_wheat_scenario :
    aggregateCycles wheatDB (matchingHarvested "Wheat" wheatDB) =
      ⟨4000, 10000, 2, 1⟩ ∧
    get_crop_forecast "Wheat" 3 wheatDB =
      .data { area := 3, data_source := "historical", cycle_count := 1,
              avg_expense_per_acre := 2000, avg_income_per_acre := 5000,
              avg_profit_per_acre := 3000, estimated_expense := 6000,
              estimated_income := 15000, estimated_profit := 9000,
              roi_percentage := 150 } := by
  have h1 : matchingHarvested "Wheat" wheatDB =
      [⟨1, 1, "Wheat", 2, .HARVESTED⟩] := by decide
  have h2 : aggregateCycles wheatDB [⟨1, 1, "Wheat", 2, .HARVESTED⟩] =
      ⟨4000, 10000, 2, 1⟩ := by
    norm_num [aggregateCycles, cycleExpenseTotal, cycleYield, wheatDB]
  refine ⟨by rw [h1, h2], ?_⟩
  rw [get_crop_forecast, h1, h2]
  norm_num

/-- C8: with no matching HARVESTED cycle the forecast consults the
curated table of lower-cased crop names: a hit is scaled by area with
`data_source = "estimated"` and `cycle_count = 0`; a miss returns the
`found = false` outcome carrying no numeric fields. -/
theorem C8_curated_fallback (crop : String) (area : Rat) (db : DB)
    (h : matchingHarvested crop db = []) :
    get_crop_forecast crop area db =
      get_estimated_forecast (pyLower (pyStrip crop)) area ∧
    (∀ e i : Rat, lookupEstimate (pyLower (pyStrip crop)) = some (e, i) →
      get_crop_forecast crop area db =
        .data { area := area, data_source := "estimated", cycle_count := 0,
                avg_expense_per_acre := e, avg_income_per_acre := i,
                avg_profit_per_acre := i - e,
                estimated_expense := e * area, estimated_income := i * area,
                estimated_profit := (i - e) * area,
                roi_percentage := if 0 < e then (i - e) / e * 100
                                  else 0 }) ∧
    (lookupEstimate (pyLower (pyStrip crop)) = none →
      get_crop_forecast crop area db =
        .noData (pyLower (pyStrip crop))
          "No historical or estimated data available for this crop.") := by
  have h0 : get_crop_forecast crop area db =
      get_estimated_forecast (pyLower (pyStrip crop)) area := by
    simp only [get_crop_forecast]
    rw [if_pos (by rw [h]; rfl)]
  refine ⟨h0, ?_, ?_⟩
  · intro e i hlk
    rw [h0]
    unfold get_estimated_forecast
    rw [hlk]
  · intro hlk
    rw [h0]
    unfold get_estimated_forecast
    rw [hlk]

/-- C9: the claim expects every farmer record to carry a preferred
language code which `signup` stores. `signup` (`views.py` line 48) does
pass a `language` keyword to `FarmerProfile.objects.create`, and the
dashboard reads `farmer.language`, but the `FarmerProfile` model of
`models.py` declares no `language` column — the keyword is not a field
of the table, so the creation call cannot store it (it raises a
`TypeError`, failing every signup). -/
theorem C9_language_field_missing :
    "language" ∈ signupProfileKwargs ∧ "language" ∉ farmerProfileFields := by
  decide

/-! ## Witnesses: the theorems with hypotheses, at concrete inputs -/

theorem C1_free_land_invariant_w : 0 ≤ get_free_land ⟨1, 10⟩ dbW1 := by
  have hop : applyOp (.startCrop 1 ⟨"Rice", 4⟩) dbW0 = .ok dbW1 := by
    have hfresh : freshCycleId dbW0 = 2 := by decide
    simp only [applyOp, hfresh]
    unfold saveCycle
    have hclean : CropCycle.clean ⟨2, 1, "Rice", 4, .ACTIVE⟩ dbW0 = none := by
      unfold CropCycle.clean
      have hff : findFarmer 1 dbW0 = some ⟨1, 10⟩ := by decide
      rw [show (⟨2, 1, "Rice", 4, .ACTIVE⟩ : CropCycle).farmerId = 1 from rfl,
        hff]
      dsimp only
      rw [if_pos (by decide)]
      rw [if_neg (by norm_num [usedExcluding, dbW0, Status.isActive])]
    rw [hclean]
    rw [show upsertCycle ⟨2, 1, "Rice", 4, .ACTIVE⟩ dbW0.cycles = dbW1.cycles
      from by decide]
    rfl
  exact (C1_free_land_invariant dbW0 dbW1 (.startCrop 1 ⟨"Rice", 4⟩) dbW0_wf
    (by decide : (0 : Rat) < 4) hop).2 ⟨1, 10⟩ (by decide)

theorem C2_insufficient_land_rejected_w :
    saveCycle ⟨2, 1, "Rice", 5, .ACTIVE⟩ dbW0 =
      .error (.insufficientLand (get_free_land ⟨1, 10⟩ dbW0)) ∧
    execSave ⟨2, 1, "Rice", 5, .ACTIVE⟩ dbW0 = dbW0 :=
  C2_insufficient_land_rejected ⟨2, 1, "Rice", 5, .ACTIVE⟩ dbW0 ⟨1, 10⟩ rfl
    (by decide) (by norm_num [usedExcluding, dbW0, Status.isActive])

theorem C3_harvest_one_way_unconditional_w :
    get_free_land ⟨1, 10⟩ (execOp (.harvest 1 1 9000) dbW0) =
      get_free_land ⟨1, 10⟩ dbW0 + 6 :=
  (C3_harvest_one_way_unconditional dbW0 dbW0_wf ⟨1, 1, "Wheat", 6, .ACTIVE⟩
    (by decide)).2.1 9000 ⟨1, 10⟩ rfl rfl

theorem C6_linear_in_area_w :
    fW.area = 3 ∧
    fW.estimated_expense = fW.avg_expense_per_acre * 3 ∧
    fW.estimated_income = fW.avg_income_per_acre * 3 ∧
    fW.estimated_profit = fW.avg_profit_per_acre * 3 := by
  have h1 : matchingHarvested "Wheat" wheatDB =
      [⟨1, 1, "Wheat", 2, .HARVESTED⟩] := by decide
  have h2 : aggregateCycles wheatDB [⟨1, 1, "Wheat", 2, .HARVESTED⟩] =
      ⟨4000, 10000, 2, 1⟩ := by
    norm_num [aggregateCycles, cycleExpenseTotal, cycleYield, wheatDB]
  have h : get_crop_forecast "Wheat" 3 wheatDB = .data fW := by
    rw [get_crop_forecast, h1, h2]
    norm_num [fW]
  exact C6_linear_in_area "Wheat" 3 wheatDB (by norm_num) fW h

theorem C8_curated_fallback_w :
    get_crop_forecast "Durian" 2 dbW0 =
      .noData "durian"
        "No historical or estimated data available for this crop." := by
  have h := C8_curated_fallback "Durian" 2 dbW0 (by decide)
  rw [h.2.2 (by decide)]
  decide

theorem C10_expense_only_own_active_w :
    (∃ c ∈ dbW0.cycles, c.id = 1 ∧ c.farmerId = 1 ∧
      c.status = .ACTIVE) ∧
    ({ dbW0 with expenses := [⟨7, 1, 300⟩] } : DB) =
      { dbW0 with expenses := dbW0.expenses ++ [⟨7, 1, 300⟩] } :=
  C10_expense_only_own_active 1 7 1 300 dbW0
    { dbW0 with expenses := [⟨7, 1, 300⟩] } (by
      simp only [applyOp]
      rw [if_pos (by decide)]
      rfl)

end AgriMate
